import Mathlib

/-!
Verification development for the bivariate-copula module
(`src/copulas/bivariate/base.py`).

Shallow embedding conventions:
* Python floats are modelled by `PyFloat`: an exact rational together with
  the IEEE special values `+inf`, `-inf` and `nan` that numpy produces on
  division by zero; numpy elementwise arithmetic is modelled by the
  corresponding `PyFloat` operations.
* Python exceptions are modelled by `Except PyError`; the module signals
  all parameter problems with `ValueError` (`PyError.valueError`), uses
  `TypeError` for operations on unset (`None`) fields, `IndexError` for
  out-of-range list subscripts and `NotFittedError` for `check_fit`.
* The three concrete family subclasses (Clayton, Frank, Gumbel) live
  outside this file's source; their closed-form capabilities are pluggable
  per the module contract and are modelled by the `Variant` structure,
  universally quantified in the theorems (concrete instantiations are used
  for witnesses and counterexamples).
* Stateful methods that assign attributes before possibly raising
  (`Bivariate.fit`) return both the `Except` outcome and the final
  attribute state, mirroring Python's behaviour of keeping assignments
  made before an exception.
-/

/-- `CopulaTypes` enum: CLAYTON = 0, FRANK = 1, GUMBEL = 2. -/
inductive CopulaTypes
  | CLAYTON
  | FRANK
  | GUMBEL
deriving DecidableEq

/-- `CopulaTypes(value)`: lookup of an enum member by its integer value. -/
def CopulaTypes.ofValue : Nat → Option CopulaTypes
  | 0 => some .CLAYTON
  | 1 => some .FRANK
  | 2 => some .GUMBEL
  | _ => none

/-- `member.name` of the enum. -/
def CopulaTypes.name : CopulaTypes → String
  | .CLAYTON => "CLAYTON"
  | .FRANK => "FRANK"
  | .GUMBEL => "GUMBEL"

/-- Python `str.upper()` (character-wise upper-casing; the member names
are ASCII). -/
def pyUpper (s : String) : String := ⟨s.data.map Char.toUpper⟩

/-- `CopulaTypes.__members__` lookup (`CopulaTypes[s]`). -/
def CopulaTypes.ofMember : String → Option CopulaTypes
  | "CLAYTON" => some .CLAYTON
  | "FRANK" => some .FRANK
  | "GUMBEL" => some .GUMBEL
  | _ => none

/-- Model of a Python/numpy double: exact rational or an IEEE special value. -/
inductive PyFloat
  | fin (q : ℚ)
  | pinf
  | ninf
  | nan
deriving DecidableEq

/-- `x != x` test for the nan special value. -/
def PyFloat.isnan : PyFloat → Bool
  | .nan => true
  | _ => false

/-- IEEE `<` (comparisons with nan are false). -/
def PyFloat.lt : PyFloat → PyFloat → Bool
  | .nan, _ => false
  | _, .nan => false
  | _, .ninf => false
  | .ninf, _ => true
  | .pinf, _ => false
  | _, .pinf => true
  | .fin a, .fin b => decide (a < b)

/-- IEEE `<=` (comparisons with nan are false). -/
def PyFloat.le : PyFloat → PyFloat → Bool
  | .nan, _ => false
  | _, .nan => false
  | .ninf, _ => true
  | _, .pinf => true
  | .pinf, _ => false
  | _, .ninf => false
  | .fin a, .fin b => decide (a ≤ b)

/-- IEEE `==` (nan is equal to nothing, including itself). -/
def PyFloat.eqb : PyFloat → PyFloat → Bool
  | .fin a, .fin b => decide (a = b)
  | .pinf, .pinf => true
  | .ninf, .ninf => true
  | _, _ => false

/-- IEEE negation. -/
def PyFloat.neg : PyFloat → PyFloat
  | .fin q => .fin (-q)
  | .pinf => .ninf
  | .ninf => .pinf
  | .nan => .nan

/-- IEEE addition (`inf + -inf = nan`, nan propagates). -/
def PyFloat.add : PyFloat → PyFloat → PyFloat
  | .nan, _ => .nan
  | _, .nan => .nan
  | .pinf, .ninf => .nan
  | .ninf, .pinf => .nan
  | .pinf, _ => .pinf
  | _, .pinf => .pinf
  | .ninf, _ => .ninf
  | _, .ninf => .ninf
  | .fin a, .fin b => .fin (a + b)

/-- IEEE subtraction. -/
def PyFloat.sub (a b : PyFloat) : PyFloat := a.add b.neg

/-- IEEE multiplication (`0 * inf = nan`, nan propagates). -/
def PyFloat.mul : PyFloat → PyFloat → PyFloat
  | .nan, _ => .nan
  | _, .nan => .nan
  | .fin a, .fin b => .fin (a * b)
  | .fin a, .pinf => if a = 0 then .nan else if 0 < a then .pinf else .ninf
  | .pinf, .fin a => if a = 0 then .nan else if 0 < a then .pinf else .ninf
  | .fin a, .ninf => if a = 0 then .nan else if 0 < a then .ninf else .pinf
  | .ninf, .fin a => if a = 0 then .nan else if 0 < a then .ninf else .pinf
  | .pinf, .pinf => .pinf
  | .pinf, .ninf => .ninf
  | .ninf, .pinf => .ninf
  | .ninf, .ninf => .pinf

/-- Squaring, `x ** 2`. -/
def PyFloat.sq (a : PyFloat) : PyFloat := a.mul a

/-- numpy true division of two exact values: division by zero produces
`inf`/`-inf`/`nan` (with a warning, not an exception). -/
def PyFloat.npdiv (a b : ℚ) : PyFloat :=
  if b = 0 then (if a = 0 then .nan else if 0 < a then .pinf else .ninf)
  else .fin (a / b)

/-- `np.sum` over a 1-d array (the order of accumulation does not affect
the nan/inf propagation semantics modelled here). -/
def PyFloat.npsum (l : List PyFloat) : PyFloat := l.foldl PyFloat.add (.fin 0)

/-- Scan step for `np.argmax`: numpy replaces the running maximum when the
candidate compares greater, treats the first nan encountered as maximal,
and never replaces a nan maximum. -/
def npArgmaxGo : List PyFloat → PyFloat → Nat → Nat → Nat
  | [], _, bi, _ => bi
  | y :: ys, bv, bi, i =>
    if !bv.isnan && (y.isnan || PyFloat.lt bv y) then npArgmaxGo ys y i (i + 1)
    else npArgmaxGo ys bv bi (i + 1)

/-- `np.argmax` (first index of the maximum; first nan wins if present).
numpy raises on an empty array; the call sites in this module always pass
a nonempty array, and the empty case is given the dummy value 0. -/
def npArgmax : List PyFloat → Nat
  | [] => 0
  | x :: xs => npArgmaxGo xs x 0 1

/-- Python truthiness of a possibly-unset float attribute
(`None`, `0.0` and `-0.0` are falsy; `nan` and the infinities are truthy). -/
def pyTruthy : Option PyFloat → Bool
  | none => false
  | some (.fin q) => decide (q ≠ 0)
  | some _ => true

/-- Error kinds raised by the module.  In the source, invalid-family,
invalid-parameter and tau-range errors are all Python `ValueError`s;
`typeError` models Python `TypeError` (e.g. comparing `None` with a
number); `indexError` models list subscripts out of range;
`notFitted` models the module's `NotFittedError`.  `insufficientData`
models the specification's abstract InsufficientData error kind; the
source never raises it (it is included so that statements about it can be
made). -/
inductive PyError
  | valueError
  | typeError
  | indexError
  | notFitted
  | insufficientData
deriving DecidableEq

/-- Fitted state of a `Bivariate` instance.  `copula_type` identifies the
concrete subclass the instance was dispatched to; `theta`, `tau` start as
`None`; `fit` also assigns `self.U`, `self.V` (attributes that do not
exist before the first `fit`, modelled by `Option`). -/
structure Model where
  copula_type : CopulaTypes
  theta : Option PyFloat
  tau : Option PyFloat
  U : Option (List ℚ)
  V : Option (List ℚ)
deriving DecidableEq

/-- A freshly constructed instance (`__init__` sets `theta = tau = None`). -/
def freshModel (t : CopulaTypes) : Model :=
  { copula_type := t, theta := none, tau := none, U := none, V := none }

/-- The pluggable capability set of one family subclass (Clayton, Frank or
Gumbel).  The closed-form formulas live outside this module and are out of
scope per the module contract; theorems quantify over them.
`get_theta` maps the fitted Kendall tau to the family parameter and may
signal an error (`ValueError`); `cumulative_density` receives the stored
theta and the two coordinate arrays; `sample_impl` models the subclass's
`_sample(v, c)` conditional sampler using the stored theta. -/
structure Variant where
  copula_type : CopulaTypes
  theta_interval : PyFloat × PyFloat
  invalid_thetas : List PyFloat
  get_theta : PyFloat → Except Unit PyFloat
  cumulative_density : Option PyFloat → List ℚ → List ℚ → List ℚ
  sample_impl : Option PyFloat → List ℚ → List ℚ → List ℚ

/-- The external `scipy.stats.kendalltau(U, V)[0]` computation: a pluggable
function of the two data arrays that either yields a float (possibly nan)
or raises (scipy raises `ValueError` on mismatched input sizes). -/
def KendallTau : Type := List ℚ → List ℚ → Except Unit PyFloat

/-- `Bivariate.check_fit`: raises `NotFittedError` when `not self.theta`,
i.e. when `theta` is `None` or (falsy) `0.0`. -/
def check_fit (m : Model) : Except PyError Unit :=
  if !pyTruthy m.theta then .error .notFitted else .ok ()

/-- `Bivariate.check_theta`: raises `ValueError` when the computed theta
lies outside `theta_interval` or is one of `invalid_thetas`.  Comparing an
unset (`None`) theta with a number would raise `TypeError` in Python; the
method is only called by `fit` after `self.theta` has been assigned. -/
def check_theta (v : Variant) (m : Model) : Except PyError Unit :=
  match m.theta with
  | none => .error .typeError
  | some θ =>
    if !(PyFloat.le v.theta_interval.1 θ && PyFloat.le θ v.theta_interval.2)
        || v.invalid_thetas.any (fun q => PyFloat.eqb θ q) then
      .error .valueError
    else .ok ()

/-- `Bivariate.fit(U, V)`: assigns `self.U`, `self.V`, then
`self.tau = kendalltau(U, V)[0]`, then `self.theta = self.get_theta()`,
then validates with `check_theta`.  The attribute assignments made before
an exception persist, so the final state is returned together with the
outcome.  There is no length or emptiness validation of the data. -/
def fit (v : Variant) (kt : KendallTau) (m : Model) (U V : List ℚ) :
    Except PyError Unit × Model :=
  let m1 := { m with U := some U, V := some V }
  match kt U V with
  | .error _ => (.error .valueError, m1)
  | .ok t =>
    let m2 := { m1 with tau := some t }
    match v.get_theta t with
    | .error _ => (.error .valueError, m2)
    | .ok θ =>
      let m3 := { m2 with theta := some θ }
      match check_theta v m3 with
      | .error e => (.error e, m3)
      | .ok _ => (.ok (), m3)

/-- `Bivariate(tag)` followed by `.fit(U, V)` on the fresh instance, as
performed by `select_copula`; the partial state of a failed fit is
discarded there because the instance is local. -/
def fitNew (v : Variant) (kt : KendallTau) (U V : List ℚ) :
    Except PyError Model :=
  match fit v kt (freshModel v.copula_type) U V with
  | (.ok _, m) => .ok m
  | (.error e, _) => .error e

/-- `Bivariate.sample(n_samples)`: checks `self.tau > 1 or self.tau < -1`
(a `TypeError` if `tau` is still `None`, since Python cannot order `None`
against a number — note the method never calls `check_fit`), then draws
`v ~ U[0,1]^n`, `c ~ U[0,1]^n` (injected here as `vdraw`, `cdraw`),
computes `u = self._sample(v, c)` and returns `column_stack((u, v))`. -/
def sample (var : Variant) (m : Model) (vdraw cdraw : List ℚ) :
    Except PyError (List (ℚ × ℚ)) :=
  match m.tau with
  | none => .error .typeError
  | some t =>
    if PyFloat.lt (.fin 1) t || PyFloat.lt t (.fin (-1)) then
      .error .valueError
    else
      let u := var.sample_impl m.theta vdraw cdraw
      .ok (u.zip vdraw)

/-- `COMPUTE_EMPIRICAL_STEPS` module constant. -/
def COMPUTE_EMPIRICAL_STEPS : Nat := 50

/-- Conversion of a machine count to an exact value (a computation-friendly
form of the numeric coercion `ℕ → ℚ`). -/
def qNat (n : Nat) : ℚ := Rat.ofInt (Int.ofNat n)

/-- `np.linspace(0.0, 1.0, 50)[k] = k / 49`. -/
def nbase (k : Nat) : ℚ := qNat k / 49

/-- `sum(np.logical_and(u <= z, v <= z)) / N` for the left tail. -/
def leftFrac (u v : List ℚ) (z : ℚ) : ℚ :=
  qNat ((u.zip v).countP (fun p => decide (p.1 ≤ z) && decide (p.2 ≤ z)))
    / qNat u.length

/-- `sum(np.logical_and(u >= z, v >= z)) / N` for the right tail. -/
def rightFrac (u v : List ℚ) (z : ℚ) : ℚ :=
  qNat ((u.zip v).countP (fun p => decide (z ≤ p.1) && decide (z ≤ p.2)))
    / qNat u.length

/-- One iteration of the `compute_empirical` loop.  In the source,
`z_left = z_right = []` and `L = R = []` bind each pair of names to a
single shared list object, so the state is one pair `(Z, W)`: a left
append and a right append go to the same two lists.  The right branch
divides by `(1 - z_right[k]) ** 2`, where `k` is the global grid index
used as a subscript into the shared list — subscripting after the current
append, so the element read can predate the grid point just appended.
(The subscript is always in range: the right-positive grid points form a
prefix of the grid, so at iteration `k` the shared list already holds at
least `k + 1` elements; `getD` with dummy default 0 models the in-range
subscript.) -/
def empStep (u v : List ℚ) (ZW : List ℚ × List PyFloat) (k : Nat) :
    List ℚ × List PyFloat :=
  let z := nbase k
  let left := leftFrac u v z
  let right := rightFrac u v z
  let ZW1 :=
    if 0 < left then (ZW.1 ++ [z], ZW.2 ++ [PyFloat.npdiv left (z * z)])
    else ZW
  if 0 < right then
    let Z2 := ZW1.1 ++ [z]
    (Z2, ZW1.2 ++ [PyFloat.npdiv right ((1 - Z2.getD k 0) * (1 - Z2.getD k 0))])
  else ZW1

/-- `Bivariate.compute_empirical(u, v)`, returning
`(z_left, L, z_right, R)`.  Because of the shared-list initialisation the
four returned values are two objects: `z_left` and `z_right` are the same
list, and so are `L` and `R`.  (For empty input Python's integer division
`0 / 0` would raise; the model's `0 / 0 = 0` keeps both counts at zero so
nothing is appended — no claim concerns empty input.) -/
def compute_empirical (u v : List ℚ) :
    List ℚ × List PyFloat × List ℚ × List PyFloat :=
  let ZW := (List.range COMPUTE_EMPIRICAL_STEPS).foldl (empStep u v) ([], [])
  (ZW.1, ZW.2, ZW.1, ZW.2)

/-- `Bivariate.compute_tail(c, z) = (1 - 2 z + c) / (1 - z) ** 2`
elementwise. -/
def compute_tail (c z : List ℚ) : List PyFloat :=
  List.zipWith (fun ci zi => PyFloat.npdiv (1 - 2 * zi + ci) ((1 - zi) * (1 - zi)))
    c z

/-- The candidate list entries of `select_copula`: a fitted instance
together with its subclass capabilities. -/
structure Cand where
  var : Variant
  model : Model

/-- `Bivariate.get_dependences(copulas, z_left, z_right)`.  In the source
`left = right = []` binds both names to one shared list, so the first loop
appends every candidate's theoretical left-tail curve
`C(z,z) / z ** 2` and the second loop appends every candidate's
right-tail curve `compute_tail(C(z,z), z)` to the *same* list; both
returned values are that single list of `2 * len(copulas)` curves. -/
def get_dependences (copulas : List Cand) (z_left z_right : List ℚ) :
    List (List PyFloat) :=
  (copulas.map (fun c =>
      List.zipWith (fun ci zi => PyFloat.npdiv ci (zi * zi))
        (c.var.cumulative_density c.model.theta z_left z_left) z_left))
    ++ (copulas.map (fun c =>
      compute_tail (c.var.cumulative_density c.model.theta z_right z_right)
        z_right))

/-- `np.sum((E - curve) ** 2)` for an empirical array `E` and one
theoretical curve. -/
def costOf (E : List PyFloat) (curve : List PyFloat) : PyFloat :=
  PyFloat.npsum (List.zipWith (fun a b => PyFloat.sq (PyFloat.sub a b)) E curve)

/-- The registry of family subclasses used by `select_copula`. -/
structure Variants where
  clayton : Variant
  frank : Variant
  gumbel : Variant

/-- `self.tau <= 0` on a possibly-unset tau (`TypeError` on `None`). -/
def pyLeOpt (o : Option PyFloat) (b : PyFloat) : Except PyError Bool :=
  match o with
  | none => .error .typeError
  | some x => .ok (PyFloat.le x b)

/-- One `try: fit ... except ValueError: pass` block of `select_copula`:
a candidate whose fit raises `ValueError` is silently dropped; any other
exception propagates; on success the fitted instance and its theta are
appended to the two accumulator lists. -/
def tryCandidate (v : Variant) (kt : KendallTau) (U V : List ℚ)
    (acc : List Cand × List (Option PyFloat)) :
    Except PyError (List Cand × List (Option PyFloat)) :=
  match fitNew v kt U V with
  | .ok m => .ok (acc.1 ++ [⟨v, m⟩], acc.2 ++ [m.theta])
  | .error .valueError => .ok acc
  | .error e => .error e

/-- `Bivariate.select_copula(U, V)`.  Fits Clayton (errors propagate); on
`clayton.tau <= 0` fits and returns Frank unconditionally; otherwise
gathers surviving candidates, computes the empirical curves and the
dependence curves, scores `cost_L`/`cost_R` against the empirical `L`/`R`
(by aliasing one and the same array) for every entry of the (aliased,
doubled) dependence list, adds them elementwise, and takes `np.argmax`.
`theta_candidates[argmax]` raises `IndexError` when the argmax falls in
the second half of the doubled cost list; otherwise the enum member with
*value* equal to the argmax position (not necessarily the candidate's own
family) and the candidate theta at that position are returned. -/
def select_copula (cs : Variants) (kt : KendallTau) (U V : List ℚ) :
    Except PyError (CopulaTypes × Option PyFloat) :=
  match fitNew cs.clayton kt U V with
  | .error e => .error e
  | .ok clayton =>
    match pyLeOpt clayton.tau (.fin 0) with
    | .error e => .error e
    | .ok true =>
      match fitNew cs.frank kt U V with
      | .error e => .error e
      | .ok frank => .ok (.FRANK, frank.theta)
    | .ok false =>
      match tryCandidate cs.frank kt U V ([⟨cs.clayton, clayton⟩], [clayton.theta]) with
      | .error e => .error e
      | .ok acc1 =>
        match tryCandidate cs.gumbel kt U V acc1 with
        | .error e => .error e
        | .ok acc2 =>
          let emp := compute_empirical U V
          let deps := get_dependences acc2.1 emp.1 emp.2.2.1
          let cost_L := deps.map (fun d => costOf emp.2.1 d)
          let cost_R := deps.map (fun d => costOf emp.2.2.2 d)
          let cost_LR := List.zipWith PyFloat.add cost_L cost_R
          let j := npArgmax cost_LR
          match acc2.2.get? j with
          | none => .error .indexError
          | some θ =>
            match CopulaTypes.ofValue j with
            | none => .error .valueError
            | some tag => .ok (tag, θ)

/-- The flat record written by `Bivariate.to_dict`. -/
structure CopulaDict where
  copula_type : String
  theta : Option PyFloat
  tau : Option PyFloat
deriving DecidableEq

/-- `Bivariate.to_dict`. -/
def to_dict (m : Model) : CopulaDict :=
  { copula_type := m.copula_type.name, theta := m.theta, tau := m.tau }

/-- The argument of `Bivariate.__new__`: the enum member itself, a string,
or any other Python object (which fails both `isinstance` tests). -/
inductive FamilyArg
  | tag (t : CopulaTypes)
  | str (s : String)
  | other

/-- Modelled from the spec: the three family subclasses (Clayton, Frank,
Gumbel) are defined outside this file and registered in
`Bivariate.subclasses()`; the registry maps each enum tag to its
subclass, here represented by the tag itself. -/
def registeredSubclasses : List CopulaTypes :=
  [.CLAYTON, .FRANK, .GUMBEL]

/-- `Bivariate.__new__(cls, copula_type)`: a non-`CopulaTypes` argument
must be a string whose upper-cased form is a member name, else
`ValueError('Invalid copula type ...')`; then the subclass whose
`copula_type` matches is instantiated.  If no registered subclass matched,
the `for` loop would fall through and `__new__` would return `None`
(modelled by the `Option`); with the three subclasses registered this does
not happen. -/
def bivariateNew (arg : FamilyArg) : Except PyError (Option CopulaTypes) :=
  match arg with
  | .tag t => .ok (registeredSubclasses.find? (fun s => s = t))
  | .str s =>
    match CopulaTypes.ofMember (pyUpper s) with
    | some t => .ok (registeredSubclasses.find? (fun c => c = t))
    | none => .error .valueError
  | .other => .error .valueError

/-- `Bivariate.from_dict(copula_dict)`: constructs `cls(record.copula_type)`
(a string, resolved by `__new__`) and injects `theta` and `tau` directly.
The unreachable `None`-instance case would fail on attribute assignment. -/
def from_dict (d : CopulaDict) : Except PyError Model :=
  match bivariateNew (.str d.copula_type) with
  | .error e => .error e
  | .ok none => .error .typeError
  | .ok (some t) =>
    .ok { freshModel t with theta := d.theta, tau := d.tau }

/-- One iteration of the loop of `compute_empirical` as the claim reads it:
four independent accumulator lists, the right-tail value divided by
`(1 - z) ** 2` for the grid point `z` appended alongside it.  This is the
claim-side reference definition; `empStep` above is the source's. -/
def claimedStep (u v : List ℚ) (S : List ℚ × List PyFloat × List ℚ × List PyFloat)
    (k : Nat) : List ℚ × List PyFloat × List ℚ × List PyFloat :=
  let z := nbase k
  let left := leftFrac u v z
  let right := rightFrac u v z
  let S1 :=
    if 0 < left then (S.1 ++ [z], S.2.1 ++ [PyFloat.npdiv left (z * z)], S.2.2.1, S.2.2.2)
    else S
  if 0 < right then
    (S1.1, S1.2.1, S1.2.2.1 ++ [z], S1.2.2.2 ++ [PyFloat.npdiv right ((1 - z) * (1 - z))])
  else S1

/-- `compute_empirical` as the claim reads it (independent lists,
denominator taken from the grid point being appended). -/
def compute_empirical_claimed (u v : List ℚ) :
    List ℚ × List PyFloat × List ℚ × List PyFloat :=
  (List.range COMPUTE_EMPIRICAL_STEPS).foldl (claimedStep u v) ([], [], [], [])

/-- The combined scores `select_copula` actually ranks in its general
branch: one entry per element of the aliased dependence list (the left
curves of all candidates followed by their right-tail curves, `2 m`
entries for `m` candidates), each scored twice against the single shared
empirical curve `L = R` and summed. -/
def doubledScores (cands : List Cand) (U V : List ℚ) : List PyFloat :=
  let emp := compute_empirical U V
  (get_dependences cands emp.1 emp.1).map
    (fun d => PyFloat.add (costOf emp.2.1 d) (costOf emp.2.1 d))

/-- Invariant of the `compute_empirical` accumulator: the two shared lists
grow in lockstep and every appended value is a positive rational or
`+inf`. -/
def empInv (ZW : List ℚ × List PyFloat) : Prop :=
  ZW.1.length = ZW.2.length ∧
    ∀ x ∈ ZW.2, x = PyFloat.pinf ∨ ∃ q, x = PyFloat.fin q ∧ 0 < q

/-- Concrete instantiation: a Kendall-tau computation returning `1/2`. -/
def ktHalf : KendallTau := fun _ _ => .ok (.fin (1 / 2))

/-- Concrete instantiation: a Kendall-tau computation returning `0`. -/
def ktZero : KendallTau := fun _ _ => .ok (.fin 0)

/-- Concrete instantiation: a Kendall-tau computation returning `2`. -/
def ktTwo : KendallTau := fun _ _ => .ok (.fin 2)

/-- Concrete Clayton-slot variant: theta equals tau, interval `[0, 100]`,
copula C(z, z) identically 1. -/
def clayton1 : Variant :=
  { copula_type := .CLAYTON
    theta_interval := (.fin 0, .fin 100)
    invalid_thetas := []
    get_theta := fun t => .ok t
    cumulative_density := fun _ zs _ => zs.map (fun _ => (1 : ℚ))
    sample_impl := fun _ vs _ => vs }

/-- Concrete Frank-slot variant whose fitted theta always violates its
interval, so its fit raises `ValueError` and `select_copula` drops it. -/
def frankBad : Variant :=
  { copula_type := .FRANK
    theta_interval := (.fin 0, .fin 100)
    invalid_thetas := []
    get_theta := fun _ => .ok (.fin 1000)
    cumulative_density := fun _ zs _ => zs.map (fun _ => (1 : ℚ))
    sample_impl := fun _ vs _ => vs }

/-- Concrete Gumbel-slot variant that is likewise always dropped. -/
def gumbelBad : Variant :=
  { copula_type := .GUMBEL
    theta_interval := (.fin 0, .fin 100)
    invalid_thetas := []
    get_theta := fun _ => .ok (.fin 1000)
    cumulative_density := fun _ zs _ => zs.map (fun _ => (1 : ℚ))
    sample_impl := fun _ vs _ => vs }

/-- Concrete Frank-slot variant that fits successfully with theta 1. -/
def frankOk : Variant :=
  { frankBad with get_theta := fun _ => .ok (.fin 1) }

/-- Concrete Gumbel-slot variant that fits successfully with theta 2. -/
def gumbelOk : Variant :=
  { gumbelBad with get_theta := fun _ => .ok (.fin 2) }

/-- Concrete Frank-slot variant that fits successfully with theta 5. -/
def frank5 : Variant :=
  { frankBad with theta_interval := (.fin 0, .fin 10), get_theta := fun _ => .ok (.fin 5) }

/-- Registry with a surviving Clayton and failing Frank/Gumbel. -/
def csBad : Variants := { clayton := clayton1, frank := frankBad, gumbel := gumbelBad }

/-- Registry in which all three candidates fit. -/
def csOk : Variants := { clayton := clayton1, frank := frankOk, gumbel := gumbelOk }

/-- Registry for the `tau <= 0` branch. -/
def csC3 : Variants := { clayton := clayton1, frank := frank5, gumbel := gumbelBad }

/-- Concrete variant whose computed theta 4 violates its interval
`[0, 1]`, so `check_theta` raises. -/
def vC2 : Variant :=
  { copula_type := .CLAYTON
    theta_interval := (.fin 0, .fin 1)
    invalid_thetas := []
    get_theta := fun _ => .ok (.fin 4)
    cumulative_density := fun _ zs _ => zs
    sample_impl := fun _ vs _ => vs }

/-- A model carrying a previous successful fit (theta 5, tau 3/10). -/
def m0 : Model :=
  { copula_type := .CLAYTON, theta := some (.fin 5), tau := some (.fin (3 / 10))
    U := none, V := none }

/-- Concrete variant with theta = tau and interval `[-1, 1]`. -/
def vC9 : Variant :=
  { copula_type := .CLAYTON
    theta_interval := (.fin (-1), .fin 1)
    invalid_thetas := []
    get_theta := fun t => .ok t
    cumulative_density := fun _ zs _ => zs
    sample_impl := fun _ vs _ => vs }

/-- The data pair of the `compute_empirical` counterexample. -/
def dC4 : List ℚ := [10 / 49, 39 / 49]

/- The exact-rational arithmetic of the embedding must evaluate inside
closed proofs; the following standard-library operations are sealed by
default and are unsealed for this file only. -/
attribute [local semireducible] Rat.mul Rat.add Rat.sub Rat.inv Nat.gcd

/-- Helper: a successful `__members__` lookup pins the string to the
member's name. -/
theorem ofMember_eq_some {x : String} {t : CopulaTypes}
    (h : CopulaTypes.ofMember x = some t) : x = CopulaTypes.name t := by
  unfold CopulaTypes.ofMember at h
  split at h <;> first
    | (injection h with h2; subst h2; rfl)
    | exact Option.noConfusion h

/-- C10: `check_fit` raises `NotFittedError` exactly when the stored theta
is unset (`None`) or is the (falsy) value `0.0`: a numerically fitted zero
dependence parameter is treated the same as the unfitted state. -/
theorem check_fit_notFitted_iff (m : Model) :
    check_fit m = .error .notFitted ↔ (m.theta = none ∨ m.theta = some (.fin 0)) := by
  unfold check_fit pyTruthy
  cases hm : m.theta with
  | none => simp
  | some x =>
    cases x with
    | fin q => by_cases hq : q = 0 <;> simp [hq]
    | pinf => simp
    | ninf => simp
    | nan => simp

/-- C6: the serialization round trip `from_dict (to_dict m)` restores the
family, theta and tau of any model exactly (the record stores the family
name, resolved back through `__new__`, and copies theta/tau verbatim). -/
theorem to_from_dict_roundtrip (m : Model) :
    (from_dict (to_dict m)).map (fun m2 => (m2.copula_type, m2.theta, m2.tau))
      = .ok (m.copula_type, m.theta, m.tau) := by
  rcases m with ⟨t, θ, τ, Uo, Vo⟩
  cases t <;> rfl

/-- C8: `Bivariate.__new__` resolves an enum tag, or a string whose
upper-cased form is a member name, to the registered subclass with that
tag; every other argument (a string naming no member, or a non-string,
non-tag object) raises the invalid-family `ValueError`. -/
theorem bivariateNew_resolution :
    (∀ t, bivariateNew (.tag t) = .ok (some t)) ∧
    (∀ s t, pyUpper s = CopulaTypes.name t → bivariateNew (.str s) = .ok (some t)) ∧
    (∀ s, (∀ t, pyUpper s ≠ CopulaTypes.name t) →
      bivariateNew (.str s) = .error .valueError) ∧
    bivariateNew .other = .error .valueError := by
  refine ⟨fun t => ?_, fun s t h => ?_, fun s h => ?_, rfl⟩
  · cases t <;> rfl
  · simp only [bivariateNew]; rw [h]; cases t <;> rfl
  · simp only [bivariateNew]
    cases hm : CopulaTypes.ofMember (pyUpper s) with
    | none => rfl
    | some t => exact absurd (ofMember_eq_some hm) (h t)

/-- C8 witness: `"Frank"` resolves to the FRANK subclass and `"vine"` is
rejected with `ValueError`. -/
theorem bivariateNew_resolution_witness :
    bivariateNew (.str "Frank") = .ok (some .FRANK) ∧
    bivariateNew (.str "vine") = .error .valueError :=
  ⟨bivariateNew_resolution.2.1 "Frank" .FRANK rfl,
   bivariateNew_resolution.2.2.1 "vine" (fun t => by cases t <;> decide)⟩

/-- C5 (amended): on a model whose tau is unset — in particular any
freshly constructed model — `sample` fails with `TypeError` (Python cannot
evaluate `None > 1`); `sample` never consults `check_fit`, so the failure
is not the NotFitted error. -/
theorem sample_unfitted_typeError (v : Variant) (m : Model) (vd cd : List ℚ)
    (h : m.tau = none) : sample v m vd cd = .error .typeError := by
  unfold sample; rw [h]

/-- C5 witness: the amended statement evaluated on a freshly constructed
Clayton-slot model. -/
theorem sample_unfitted_typeError_witness :
    sample clayton1 (freshModel .CLAYTON) [(1:ℚ)/2] [(1:ℚ)/3] = .error .typeError :=
  sample_unfitted_typeError clayton1 (freshModel .CLAYTON) [(1:ℚ)/2] [(1:ℚ)/3] rfl

/-- C5 counterexample: on a freshly constructed (unfitted) model `sample`
fails with `TypeError`, not with the NotFitted error the claim requires. -/
theorem sample_unfitted_not_notFitted_cex :
    sample clayton1 (freshModel .CLAYTON) [] [] = .error .typeError ∧
    sample clayton1 (freshModel .CLAYTON) [] [] ≠ .error .notFitted :=
  ⟨rfl, by
    intro h
    rw [show sample clayton1 (freshModel .CLAYTON) [] [] = .error .typeError from rfl] at h
    exact PyError.noConfusion (Except.error.inj h)⟩

/-- C3: whenever the Clayton fit succeeds with `tau <= 0` and the Frank
fit succeeds, `select_copula` returns the FRANK tag with the Frank model's
theta.  The statement holds for every registry `cs`, in particular for
arbitrary `cumulative_density` capabilities: no tail-curve comparison
influences this branch. -/
theorem select_copula_tau_nonpos (cs : Variants) (kt : KendallTau) (U V : List ℚ)
    (mc mf : Model) (h1 : fitNew cs.clayton kt U V = .ok mc)
    (h2 : pyLeOpt mc.tau (.fin 0) = .ok true)
    (h3 : fitNew cs.frank kt U V = .ok mf) :
    select_copula cs kt U V = .ok (.FRANK, mf.theta) := by
  simp only [select_copula, h1, h2, h3]

/-- C3 witness: a registry whose Clayton fit yields tau 0 selects Frank
(theta 5) on concrete data. -/
theorem select_copula_tau_nonpos_witness :
    select_copula csC3 ktZero [(1:ℚ)/2, 1/3] [(1:ℚ)/2, 1/4] = .ok (.FRANK, some (.fin 5)) :=
  select_copula_tau_nonpos csC3 ktZero [(1:ℚ)/2, 1/3] [(1:ℚ)/2, 1/4]
    ⟨.CLAYTON, some (.fin 0), some (.fin 0), some [(1:ℚ)/2, 1/3], some [(1:ℚ)/2, 1/4]⟩
    ⟨.FRANK, some (.fin 5), some (.fin 0), some [(1:ℚ)/2, 1/3], some [(1:ℚ)/2, 1/4]⟩
    rfl rfl rfl

/-- Helper: `check_theta` only ever raises `ValueError` (or `TypeError` on
an unset theta); it can never produce the InsufficientData kind. -/
theorem check_theta_ne_insufficientData (v : Variant) (m : Model) :
    check_theta v m ≠ .error .insufficientData := by
  unfold check_theta
  cases m.theta with
  | none => exact fun h => PyError.noConfusion (Except.error.inj h)
  | some θ =>
    cases hcond : (!(PyFloat.le v.theta_interval.1 θ && PyFloat.le θ v.theta_interval.2)
        || v.invalid_thetas.any fun q => PyFloat.eqb θ q) with
    | true => simp only [hcond]; simp
    | false => simp only [hcond]; simp

/-- C2 (amended): `fit` is not atomic: it commits the newly computed tau
and theta to the model *before* validating, so when `check_theta` raises
the InvalidParameter `ValueError` the model already holds the new (and
invalid) values; the outcome of `fit` is exactly the outcome of
`check_theta` on that updated state. -/
theorem fit_commits_before_validation (v : Variant) (kt : KendallTau)
    (m : Model) (U V : List ℚ) (t θ : PyFloat)
    (h1 : kt U V = .ok t) (h2 : v.get_theta t = .ok θ) :
    (fit v kt m U V).2.tau = some t ∧ (fit v kt m U V).2.theta = some θ ∧
    (fit v kt m U V).1 = check_theta v (fit v kt m U V).2 := by
  simp only [fit, h1, h2]
  cases hc : check_theta v { m with U := some U, V := some V, tau := some t, theta := some θ } with
  | ok u => cases u; simp [hc]
  | error e => simp [hc]

/-- C2 witness: the amended statement evaluated on a model with a previous
fitted state and a variant whose computed theta 4 violates its interval. -/
theorem fit_commits_before_validation_witness :
    (fit vC2 ktTwo m0 [1] [2]).2.tau = some (.fin 2) ∧
    (fit vC2 ktTwo m0 [1] [2]).2.theta = some (.fin 4) ∧
    (fit vC2 ktTwo m0 [1] [2]).1 = check_theta vC2 (fit vC2 ktTwo m0 [1] [2]).2 :=
  fit_commits_before_validation vC2 ktTwo m0 [1] [2] (.fin 2) (.fin 4) rfl rfl

/-- C2 counterexample: a fit that raises the parameter-validation
`ValueError` leaves the model with the *new* tau and theta, not the values
stored before the call: the prior state (theta 5, tau 3/10) is lost. -/
theorem fit_not_atomic_cex :
    (fit vC2 ktTwo m0 [1] [2]).1 = .error .valueError ∧
    (fit vC2 ktTwo m0 [1] [2]).2.tau ≠ m0.tau ∧
    (fit vC2 ktTwo m0 [1] [2]).2.theta ≠ m0.theta := by
  refine ⟨rfl, ?_, ?_⟩ <;> decide

/-- C9 (amended): `fit` performs no validation of the data lengths at all:
it never raises the InsufficientData kind, and whenever the external
Kendall-tau computation returns a value — which scipy does even for
length-1 inputs, where it returns nan — that value is committed to
`self.tau` regardless of the input lengths. -/
theorem fit_no_length_validation (v : Variant) (kt : KendallTau)
    (m : Model) (U V : List ℚ) :
    (fit v kt m U V).1 ≠ .error .insufficientData ∧
    (∀ t, kt U V = .ok t → (fit v kt m U V).2.tau = some t) := by
  constructor
  · cases hk : kt U V with
    | error e =>
      simp only [fit, hk]
      exact fun h => PyError.noConfusion (Except.error.inj h)
    | ok t =>
      cases hg : v.get_theta t with
      | error e =>
        simp only [fit, hk, hg]
        exact fun h => PyError.noConfusion (Except.error.inj h)
      | ok θ =>
        cases hc : check_theta v { m with U := some U, V := some V, tau := some t, theta := some θ } with
        | error e =>
          simp only [fit, hk, hg, hc]
          intro h
          exact check_theta_ne_insufficientData v _
            (hc.trans (congrArg Except.error (Except.error.inj h)))
        | ok u =>
          cases u
          simp only [fit, hk, hg, hc]
          exact fun h => Except.noConfusion h
  · intro t ht
    cases hg : v.get_theta t with
    | error e => simp [fit, ht, hg]
    | ok θ =>
      cases hc : check_theta v { m with U := some U, V := some V, tau := some t, theta := some θ } with
      | error e => simp [fit, ht, hg, hc]
      | ok u => cases u; simp [fit, ht, hg, hc]

/-- C9 witness: the amended statement evaluated at a length-1 input. -/
theorem fit_no_length_validation_witness :
    (fit vC9 ktZero (freshModel .CLAYTON) [(1:ℚ)/2] [(1:ℚ)/2]).1 ≠ .error .insufficientData ∧
    (fit vC9 ktZero (freshModel .CLAYTON) [(1:ℚ)/2] [(1:ℚ)/2]).2.tau = some (.fin 0) :=
  ⟨(fit_no_length_validation vC9 ktZero (freshModel .CLAYTON) [(1:ℚ)/2] [(1:ℚ)/2]).1,
   (fit_no_length_validation vC9 ktZero (freshModel .CLAYTON) [(1:ℚ)/2] [(1:ℚ)/2]).2 (.fin 0) rfl⟩

/-- C9 counterexample: `fit` on equal-length-1 data (common length < 2)
succeeds outright, computing and storing tau and theta — it does not fail
with the InsufficientData error before computing or storing tau. -/
theorem fit_short_input_cex :
    fit vC9 ktZero (freshModel .CLAYTON) [(1:ℚ)/2] [(1:ℚ)/2]
      = (.ok (), { copula_type := .CLAYTON, theta := some (.fin 0), tau := some (.fin 0),
                   U := some [(1:ℚ)/2], V := some [(1:ℚ)/2] }) := rfl

/-- Helper: a numerator-positive numpy division by a square is `+inf` or a
positive rational. -/
theorem npdiv_pos_sq (a b : ℚ) (ha : 0 < a) :
    PyFloat.npdiv a (b * b) = .pinf ∨ ∃ q, PyFloat.npdiv a (b * b) = .fin q ∧ 0 < q := by
  unfold PyFloat.npdiv
  by_cases hb : b * b = 0
  · left; simp [hb, ha.ne', ha]
  · right
    refine ⟨a / (b * b), by simp [hb], ?_⟩
    exact div_pos ha (lt_of_le_of_ne (mul_self_nonneg b) (Ne.symm hb))

/-- Helper: appending one grid point and one positive-or-infinite value
preserves the accumulator invariant. -/
theorem appendInv (ZW : List ℚ × List PyFloat) (h : empInv ZW) (z : ℚ)
    (x : PyFloat) (hx : x = .pinf ∨ ∃ q, x = .fin q ∧ 0 < q) :
    empInv (ZW.1 ++ [z], ZW.2 ++ [x]) := by
  obtain ⟨hlen, hmem⟩ := h
  refine ⟨by simp [hlen], ?_⟩
  intro y hy
  rcases List.mem_append.mp hy with hy | hy
  · exact hmem y hy
  · rw [List.mem_singleton.mp hy]; exact hx

/-- Helper: one `compute_empirical` iteration preserves the invariant. -/
theorem empStep_inv (u v : List ℚ) (k : Nat) (ZW : List ℚ × List PyFloat)
    (h : empInv ZW) : empInv (empStep u v ZW k) := by
  simp only [empStep]
  split
  next hr =>
    refine appendInv _ ?_ _ _ (npdiv_pos_sq _ _ hr)
    split
    next hl => exact appendInv _ h _ _ (npdiv_pos_sq _ _ hl)
    next => exact h
  next hr =>
    split
    next hl => exact appendInv _ h _ _ (npdiv_pos_sq _ _ hl)
    next => exact h

/-- Helper: the invariant holds after the whole fold. -/
theorem foldl_empInv (u v : List ℚ) (ks : List Nat) (ZW : List ℚ × List PyFloat)
    (h : empInv ZW) : empInv (ks.foldl (empStep u v) ZW) := by
  induction ks generalizing ZW with
  | nil => exact h
  | cons k ks ih => exact ih _ (empStep_inv u v k ZW h)

/-- C7 (amended): for every input pair, `z_left` and `L` have equal length
and `z_right` and `R` have equal length (indeed, by the shared-list
initialisation, `z_right` *is* `z_left` and `R` *is* `L`); every appended
entry is either a positive rational or `+inf` — the infinite case occurs
exactly when the denominator of the appended entry vanishes (for example
at grid point `0`), so the entries are not finite in general even though
every appended entry has a positive count. -/
theorem compute_empirical_shape (u v : List ℚ) :
    (compute_empirical u v).1.length = (compute_empirical u v).2.1.length ∧
    (compute_empirical u v).2.2.1 = (compute_empirical u v).1 ∧
    (compute_empirical u v).2.2.2 = (compute_empirical u v).2.1 ∧
    ∀ x ∈ (compute_empirical u v).2.1,
      x = PyFloat.pinf ∨ ∃ q, x = PyFloat.fin q ∧ 0 < q := by
  have h := foldl_empInv u v (List.range COMPUTE_EMPIRICAL_STEPS) ([], [])
    ⟨rfl, by simp⟩
  exact ⟨h.1, rfl, rfl, h.2⟩

/-- C7 counterexample: on the input pair `u = v = [0, 0]` the left count
at grid point `0` is positive (it is `1`), yet the corresponding entry of
`L` is `+inf` (numpy divides the positive count by `0 ** 2`), so the
entries of `L` are not all finite when their counts are positive. -/
theorem compute_empirical_inf_entry_cex :
    (compute_empirical [(0:ℚ), 0] [(0:ℚ), 0]).2.1.getD 0 (.fin 0) = .pinf ∧
    0 < leftFrac [(0:ℚ), 0] [(0:ℚ), 0] (nbase 0) ∧
    (compute_empirical [(0:ℚ), 0] [(0:ℚ), 0]).1.getD 0 0 = nbase 0 :=
  ⟨rfl, by decide, rfl⟩

/-- Helper: `qNat` agrees with the numeric coercion. -/
theorem qNat_cast (n : ℕ) : qNat n = (n : ℚ) := by
  simp [qNat, Rat.ofInt_eq_cast]

/-- Helper: `qNat` values are nonnegative. -/
theorem qNat_nonneg (n : ℕ) : 0 ≤ qNat n := by
  rw [qNat_cast]; positivity

/-- Helper: the grid is monotone. -/
theorem nbase_mono {i j : ℕ} (h : i ≤ j) : nbase i ≤ nbase j := by
  unfold nbase
  refine (div_le_div_iff_of_pos_right (by norm_num)).mpr ?_
  rw [qNat_cast, qNat_cast]
  exact_mod_cast h

/-- Helper: the right-tail count fraction is positive at every grid point
below a grid point where it is positive (the right-positive grid points
form a prefix of the grid). -/
theorem rightFrac_pos_mono (u v : List ℚ) {y z : ℚ} (hyz : y ≤ z)
    (h : 0 < rightFrac u v z) : 0 < rightFrac u v y := by
  unfold rightFrac at h ⊢
  rcases div_pos_iff.mp h with ⟨hc, hN⟩ | ⟨hc, _⟩
  · refine div_pos ?_ hN
    have hle : List.countP (fun p => decide (z ≤ p.1) && decide (z ≤ p.2)) (u.zip v)
        ≤ List.countP (fun p => decide (y ≤ p.1) && decide (y ≤ p.2)) (u.zip v) := by
      apply List.countP_mono_left
      intro x hx hpx
      simp only [Bool.and_eq_true, decide_eq_true_eq] at hpx ⊢
      exact ⟨le_trans hyz hpx.1, le_trans hyz hpx.2⟩
    rw [qNat_cast] at hc ⊢
    exact lt_of_lt_of_le hc (by exact_mod_cast hle)
  · exact absurd hc (not_lt.mpr (qNat_nonneg _))

/-- Helper: the claim-side loop iteration touches `z_right` and `R` only
in its right branch, appending the grid point and the value with the
grid-point denominator. -/
theorem claimedStep_right (u v : List ℚ) (S : List ℚ × List PyFloat × List ℚ × List PyFloat)
    (k : Nat) :
    (claimedStep u v S k).2.2.1
        = (if 0 < rightFrac u v (nbase k) then S.2.2.1 ++ [nbase k] else S.2.2.1) ∧
    (claimedStep u v S k).2.2.2
        = (if 0 < rightFrac u v (nbase k) then
            S.2.2.2 ++ [PyFloat.npdiv (rightFrac u v (nbase k)) ((1 - nbase k) * (1 - nbase k))]
          else S.2.2.2) := by
  simp only [claimedStep]
  constructor <;> (split <;> split <;> rfl)

/-- Helper: the right components of the claim-side fold are the filtered
grid with the claim's values. -/
theorem claimed_right_components (u v : List ℚ) (ks : List Nat)
    (S : List ℚ × List PyFloat × List ℚ × List PyFloat) :
    (ks.foldl (claimedStep u v) S).2.2.1
        = S.2.2.1 ++ ((ks.filter (fun k => decide (0 < rightFrac u v (nbase k)))).map nbase) ∧
    (ks.foldl (claimedStep u v) S).2.2.2
        = S.2.2.2 ++ ((ks.filter (fun k => decide (0 < rightFrac u v (nbase k)))).map
            (fun k => PyFloat.npdiv (rightFrac u v (nbase k)) ((1 - nbase k) * (1 - nbase k)))) := by
  induction ks generalizing S with
  | nil => simp
  | cons k ks ih =>
    simp only [List.foldl_cons, List.filter_cons]
    obtain ⟨ih1, ih2⟩ := ih (claimedStep u v S k)
    obtain ⟨hs1, hs2⟩ := claimedStep_right u v S k
    by_cases hr : 0 < rightFrac u v (nbase k)
    · rw [ih1, ih2, hs1, hs2]
      simp [hr]
    · rw [ih1, ih2, hs1, hs2]
      simp [hr]

/-- Helper: when the left branch never fires, the source fold keeps the
shared list equal to the grid prefix of right-firing points, and every
appended `R` value uses the grid-point denominator: with no left
interference the shared list stays in sync with the grid, so
`z_right[k]` is the grid point of iteration `k`. -/
theorem code_fold_no_left (u v : List ℚ)
    (hl : ∀ k, k < COMPUTE_EMPIRICAL_STEPS → ¬ 0 < leftFrac u v (nbase k)) :
    ∀ j, j ≤ COMPUTE_EMPIRICAL_STEPS →
      (List.range j).foldl (empStep u v) ([], []) =
        (((List.range j).filter (fun k => decide (0 < rightFrac u v (nbase k)))).map nbase,
         ((List.range j).filter (fun k => decide (0 < rightFrac u v (nbase k)))).map
           (fun k => PyFloat.npdiv (rightFrac u v (nbase k)) ((1 - nbase k) * (1 - nbase k)))) := by
  intro j
  induction j with
  | zero => intro _; simp
  | succ j ih =>
    intro hj
    have hj' : j ≤ COMPUTE_EMPIRICAL_STEPS := Nat.le_of_succ_le hj
    have hjlt : j < COMPUTE_EMPIRICAL_STEPS := Nat.lt_of_lt_of_le (Nat.lt_succ_self j) hj
    rw [List.range_succ, List.foldl_append, List.filter_append, ih hj']
    simp only [List.foldl_cons, List.foldl_nil, List.filter_cons, List.filter_nil]
    by_cases hr : 0 < rightFrac u v (nbase j)
    · have hall : (List.range j).filter (fun k => decide (0 < rightFrac u v (nbase k)))
          = List.range j := by
        rw [List.filter_eq_self]
        intro a ha
        exact decide_eq_true
          (rightFrac_pos_mono u v (nbase_mono (Nat.le_of_lt (List.mem_range.mp ha))) hr)
      rw [hall]
      simp only [empStep]
      rw [if_neg (hl j hjlt), if_pos hr]
      have hget : (((List.range j).map nbase) ++ [nbase j]).getD j 0 = nbase j := by
        rw [List.getD_append_right _ _ _ _ (by simp)]
        simp
      simp only [hget]
      simp [hr]
    · simp only [empStep]
      rw [if_neg (hl j hjlt), if_neg hr]
      simp [hr]

/-- C4 (amended): when the left-tail count is never positive (so the
shared aliased list receives right-branch appends only and stays in sync
with the grid), `z_right` and `R` coincide with the claim's reading:
every appended `R` value is `right_count / (1 - z) ** 2` for the grid
point `z` appended alongside it.  In general the denominator is the
`k`-th element of the single list shared (by aliasing) between `z_left`
and `z_right`, with `k` the global grid index, which the counterexample
shows can be an earlier grid point than the one being appended. -/
theorem compute_empirical_right_no_left (u v : List ℚ)
    (hl : ∀ k, k < COMPUTE_EMPIRICAL_STEPS → ¬ 0 < leftFrac u v (nbase k)) :
    (compute_empirical u v).2.2.1 = (compute_empirical_claimed u v).2.2.1 ∧
    (compute_empirical u v).2.2.2 = (compute_empirical_claimed u v).2.2.2 := by
  have hcode := code_fold_no_left u v hl COMPUTE_EMPIRICAL_STEPS le_rfl
  obtain ⟨h1, h2⟩ := claimed_right_components u v (List.range COMPUTE_EMPIRICAL_STEPS)
    ([], [], [], [])
  constructor
  · show ((List.range COMPUTE_EMPIRICAL_STEPS).foldl (empStep u v) ([], [])).1
        = (compute_empirical_claimed u v).2.2.1
    rw [hcode]
    unfold compute_empirical_claimed
    rw [h1]
    simp
  · show ((List.range COMPUTE_EMPIRICAL_STEPS).foldl (empStep u v) ([], [])).2
        = (compute_empirical_claimed u v).2.2.2
    rw [hcode]
    unfold compute_empirical_claimed
    rw [h2]
    simp

/-- C4 witness: on `u = v = [2]` the left branch never fires, and the
source `R` equals the claim's `R` exactly. -/
theorem compute_empirical_right_no_left_witness :
    (compute_empirical [(2:ℚ)] [(2:ℚ)]).2.2.1 = (compute_empirical_claimed [(2:ℚ)] [(2:ℚ)]).2.2.1 ∧
    (compute_empirical [(2:ℚ)] [(2:ℚ)]).2.2.2 = (compute_empirical_claimed [(2:ℚ)] [(2:ℚ)]).2.2.2 :=
  compute_empirical_right_no_left [(2:ℚ)] [(2:ℚ)] (by decide)

/-- C4 counterexample: on `u = v = [10/49, 39/49]` both branches fire from
iteration 10 onward, so the shared aliased list runs ahead of the grid:
the value appended to `R` during iteration 11 (position 13 of `R`) is
`(1/2) / (1 - 10/49) ** 2 = 2401/3042`, using the grid point of iteration
10, while the claim's reading requires `(1/2) / (1 - 11/49) ** 2 =
2401/2888` (position 11 of the claim-side `R`); the two `R` sequences
differ. -/
theorem compute_empirical_R_denominator_cex :
    (compute_empirical dC4 dC4).2.2.2.getD 13 (.fin 0) = .fin (2401 / 3042) ∧
    (compute_empirical_claimed dC4 dC4).2.2.2.getD 11 (.fin 0) = .fin (2401 / 2888) ∧
    (compute_empirical dC4 dC4).2.2.2 ≠ (compute_empirical_claimed dC4 dC4).2.2.2 :=
  ⟨rfl, rfl, by decide⟩

/-- Helper: zipping a mapped list with itself applies the combinator to
each mapped element twice. -/
theorem zipWith_map_self {α β γ : Type} (f : α → β) (g : β → β → γ) (l : List α) :
    List.zipWith g (l.map f) (l.map f) = l.map (fun x => g (f x) (f x)) := by
  induction l with
  | nil => rfl
  | cons a l ih => simp [ih]

/-- Helper: in the general branch with all three candidates surviving,
`select_copula` reduces to ranking the doubled score list (both cost
arrays coincide because `get_dependences` and `compute_empirical` alias
their left/right outputs) and indexing the theta list and the enum by the
argmax position. -/
theorem select_copula_general_eq (cs : Variants) (kt : KendallTau) (U V : List ℚ)
    (mc mf mg : Model)
    (h1 : fitNew cs.clayton kt U V = .ok mc)
    (h2 : pyLeOpt mc.tau (.fin 0) = .ok false)
    (h3 : fitNew cs.frank kt U V = .ok mf)
    (h4 : fitNew cs.gumbel kt U V = .ok mg) :
    select_copula cs kt U V =
      (match [mc.theta, mf.theta, mg.theta].get?
          (npArgmax (doubledScores [⟨cs.clayton, mc⟩, ⟨cs.frank, mf⟩, ⟨cs.gumbel, mg⟩] U V)) with
       | none => .error .indexError
       | some θ =>
         match CopulaTypes.ofValue
             (npArgmax (doubledScores [⟨cs.clayton, mc⟩, ⟨cs.frank, mf⟩, ⟨cs.gumbel, mg⟩] U V)) with
         | none => .error .valueError
         | some tag => .ok (tag, θ)) := by
  simp only [select_copula, h1, h2, tryCandidate, h3, h4, doubledScores,
    compute_empirical, zipWith_map_self, List.cons_append, List.nil_append,
    List.singleton_append, List.append_nil]

/-- C1 (amended): in the general branch, because `get_dependences` aliases
its two accumulators, the dependence list holds the left-tail curves of
the surviving candidates followed by their right-tail curves (`2 m`
curves for `m` candidates), and because `compute_empirical` aliases its
outputs both cost arrays are computed against the single shared empirical
curve; the combined score of each of the `2 m` curves is twice its squared
deviation from that curve.  `select_copula` returns the tag whose enum
*value* is the argmax position and the theta at that position when the
argmax falls among the first `m` entries, and raises `IndexError`
otherwise — the returned tag is determined by position, and the theorem
describes the all-candidates-survive case `m = 3`. -/
theorem select_copula_general_branch (cs : Variants) (kt : KendallTau) (U V : List ℚ)
    (mc mf mg : Model) (j : ℕ)
    (h1 : fitNew cs.clayton kt U V = .ok mc)
    (h2 : pyLeOpt mc.tau (.fin 0) = .ok false)
    (h3 : fitNew cs.frank kt U V = .ok mf)
    (h4 : fitNew cs.gumbel kt U V = .ok mg)
    (hj : npArgmax (doubledScores [⟨cs.clayton, mc⟩, ⟨cs.frank, mf⟩, ⟨cs.gumbel, mg⟩] U V) = j) :
    (j = 0 → select_copula cs kt U V = .ok (.CLAYTON, mc.theta)) ∧
    (j = 1 → select_copula cs kt U V = .ok (.FRANK, mf.theta)) ∧
    (j = 2 → select_copula cs kt U V = .ok (.GUMBEL, mg.theta)) ∧
    (3 ≤ j → select_copula cs kt U V = .error .indexError) := by
  have he := select_copula_general_eq cs kt U V mc mf mg h1 h2 h3 h4
  rw [hj] at he
  refine ⟨?_, ?_, ?_, ?_⟩ <;> intro hjv
  · subst hjv; exact he
  · subst hjv; exact he
  · subst hjv; exact he
  · have hnone : [mc.theta, mf.theta, mg.theta].get? j = none :=
      List.get?_eq_none.mpr (by simpa using hjv)
    rw [hnone] at he
    exact he

/-- C1 witness: with all three candidates surviving on data that empties
the empirical grid, every score is zero, the argmax is position 0 and the
Clayton candidate's tag and theta are returned. -/
theorem select_copula_general_branch_witness :
    select_copula csOk ktHalf [(-1:ℚ)] [(2:ℚ)] = .ok (.CLAYTON, some (.fin (1/2))) :=
  (select_copula_general_branch csOk ktHalf [(-1:ℚ)] [(2:ℚ)]
      ⟨.CLAYTON, some (.fin (1/2)), some (.fin (1/2)), some [(-1:ℚ)], some [(2:ℚ)]⟩
      ⟨.FRANK, some (.fin 1), some (.fin (1/2)), some [(-1:ℚ)], some [(2:ℚ)]⟩
      ⟨.GUMBEL, some (.fin 2), some (.fin (1/2)), some [(-1:ℚ)], some [(2:ℚ)]⟩
      0 rfl rfl rfl rfl rfl).1 rfl

/-- C1 counterexample: with Clayton the sole surviving candidate (Frank
and Gumbel both dropped by `ValueError`), the claim requires
`select_copula` to return the Clayton tag and theta — trivially the
candidate of maximal combined score.  Instead the doubled cost list has
two entries, the argmax lands on the second (the right-tail curve's
score), and `theta_candidates[1]` raises `IndexError`. -/
theorem select_copula_index_error_cex :
    select_copula csBad ktHalf [(1:ℚ)/2] [(1:ℚ)/2] = .error .indexError ∧
    fitNew csBad.clayton ktHalf [(1:ℚ)/2] [(1:ℚ)/2]
      = .ok ⟨.CLAYTON, some (.fin (1/2)), some (.fin (1/2)), some [(1:ℚ)/2], some [(1:ℚ)/2]⟩ ∧
    fitNew csBad.frank ktHalf [(1:ℚ)/2] [(1:ℚ)/2] = .error .valueError ∧
    fitNew csBad.gumbel ktHalf [(1:ℚ)/2] [(1:ℚ)/2] = .error .valueError :=
  ⟨rfl, rfl, rfl, rfl⟩
